import Mathlib

/-!
# Verification of the pypath interaction-network core

Shallow embedding of `src/pypath/interaction.py` and
`src/pypath/core/network.py` (the interaction store, evidence routing,
direction/sign consensus, the HTP / undirected removal operations, the
ingest line loop and the bounded path search), together with proofs and
refutations of the specification claims.

Entities are modelled by their integer identifier (the spec fixes
equality on the identifying tuple; `id_type`, `entity_type` and `taxon`
play no role in any claim, so they are held constant).  References
(PubMed ids) are modelled as naturals.
-/

namespace Pypath

/-- Modelled from the spec: `pypath.resource.NetworkResource` is not under
`src/`; §3 of the spec defines it as the tuple
`(name, interaction_type, data_model, via?)`, equal iff all four are equal,
secondary iff `via` is non-null. -/
structure NetworkResource where
  name : String
  interaction_type : String
  data_model : String
  via : Option String
deriving DecidableEq, Repr

/-- Modelled from the spec: `pypath.evidence.Evidence` is not under `src/`;
§3 defines it as `(resource, references)` with equality on `resource`
alone.  The reference set is carried as a duplicate-free-by-use list. -/
structure Evidence where
  resource : NetworkResource
  references : List Nat
deriving DecidableEq, Repr

/-- Set-union of two reference lists (keeps the left operand's order). -/
def refUnion (xs ys : List Nat) : List Nat :=
  xs ++ ys.filter (fun y => ¬ xs.contains y)

/-- An `Evidences` container: list of `Evidence` with at most one entry per
`resource` value, maintained by `addEvidence` (the Python object is a dict
keyed by resource). -/
abbrev Evidences := List Evidence

namespace Evidences

/-- Modelled from the spec (§4.3): `Evidences += Evidence` — if an evidence
with the same resource is present its references are unioned into it,
otherwise the evidence is appended. -/
def addEvidence (evs : Evidences) (e : Evidence) : Evidences :=
  if evs.any (fun x => x.resource = e.resource) then
    evs.map (fun x =>
      if x.resource = e.resource then
        { x with references := refUnion x.references e.references }
      else x)
  else
    evs ++ [e]

/-- Modelled from the spec (§4.3): `Evidences += Evidences` — union,
deduplicating by resource. -/
def add (evs other : Evidences) : Evidences :=
  other.foldl addEvidence evs

/-- Membership of a resource in an `Evidences` container (the Python
`in` test; evidence equality is equality of resources). -/
def hasResource (evs : Evidences) (r : NetworkResource) : Bool :=
  evs.any (fun e => e.resource = r)

/-- The resources of the evidences, in container order. -/
def resOf (evs : Evidences) : List NetworkResource :=
  evs.map (·.resource)

/-- Modelled from the spec (§4.3): the `via` constraint of the evidence
filter.  `none` (Python `None`) = no constraint; `primaryOnly` (Python
`False`) = only primary resources; `secondaryOnly` (Python `True`) = only
secondary; `through n` = secondary via the named primary. -/
inductive ViaFilter where
  | noConstraint
  | primaryOnly
  | secondaryOnly
  | through (name : String)
deriving DecidableEq, Repr

def matchVia (via : Option String) : ViaFilter → Bool
  | .noConstraint => true
  | .primaryOnly => via = none
  | .secondaryOnly => via ≠ none
  | .through n => via = some n

/-- Modelled from the spec (§4.3): `filter(resource?, interaction_type?,
data_model?, references?, via?)` keeps the evidences whose resource
satisfies every supplied constraint (a `none` constraint always holds;
the `references` constraint keeps evidences citing at least one of the
given references). -/
structure EvFilter where
  resources : Option (List String) := none
  interaction_type : Option String := none
  data_model : Option String := none
  references : Option (List Nat) := none
  via : ViaFilter := .noConstraint
deriving DecidableEq, Repr

/-- The filter with no constraint, i.e. all filter arguments `None`. -/
def noFilter : EvFilter := {}

def matchesFilter (f : EvFilter) (e : Evidence) : Bool :=
  (match f.resources with
    | none => true
    | some names => names.contains e.resource.name) &&
  (match f.interaction_type with
    | none => true
    | some it => e.resource.interaction_type = it) &&
  (match f.data_model with
    | none => true
    | some dm => e.resource.data_model = dm) &&
  (match f.references with
    | none => true
    | some refs => e.references.any (fun r => refs.contains r)) &&
  matchVia e.resource.via f.via

def filterBy (evs : Evidences) (f : EvFilter) : Evidences :=
  evs.filter (matchesFilter f)

/-- Modelled from the spec (§4.3): `count_resources` after filtering. -/
def countResources (evs : Evidences) (f : EvFilter) : Nat :=
  (filterBy evs f).length

/-- Modelled from the spec (§4.3): `count_references` — the number of
distinct references over the filtered evidences. -/
def countReferences (evs : Evidences) (f : EvFilter) : Nat :=
  ((filterBy evs f).flatMap (·.references)).dedup.length

/-- Modelled from the spec (§4.3 and glossary): `count_curation_effort` =
number of distinct `(reference, resource)` pairs over the filtered
evidences. -/
def countCurationEffort (evs : Evidences) (f : EvFilter) : Nat :=
  ((filterBy evs f).flatMap
    (fun e => e.references.dedup.map (fun r => (r, e.resource)))).dedup.length

/-- The distinct references of the container (`get_references`). -/
def getReferences (evs : Evidences) : List Nat :=
  (evs.flatMap (·.references)).dedup

/-- Containment of evidence containers up to evidence equality (which is
resource equality): every evidence of `xs` appears in `ys`. -/
def subRes (xs ys : Evidences) : Bool :=
  xs.all (fun e => hasResource ys e.resource)

end Evidences

/-! ## Interaction (`src/pypath/interaction.py`) -/

/-- The three direction keys of an interaction: `(a, b)`, `(b, a)` and the
sentinel `'undirected'` (`Interaction.__init__`, interaction.py:88-92). -/
inductive DirKey where
  | ab
  | ba
  | undirected
deriving DecidableEq, Repr

/-- A raw direction argument as supplied by callers: either the string
`'undirected'` or an ordered pair of node identifiers. -/
inductive RawDir where
  | undirected
  | pair (src tgt : Nat)
deriving DecidableEq, Repr

/-- Python `pypath.interaction.Interaction`: endpoints in canonical order
(`a ≤ b`, interaction.py:78-80) and the four evidence slots
(interaction.py:87-100): the overall `evidences` container, the three
`direction` slots and the two `positive` / two `negative` sign slots. -/
structure Interaction where
  a : Nat
  b : Nat
  evidences : Evidences
  dir_ab : Evidences
  dir_ba : Evidences
  dir_un : Evidences
  pos_ab : Evidences
  pos_ba : Evidences
  neg_ab : Evidences
  neg_ba : Evidences
deriving DecidableEq, Repr

namespace Interaction

/-- Python `Interaction.__init__` (interaction.py:53-100): nodes are sorted into
canonical order, all evidence slots start empty. -/
def make (x y : Nat) : Interaction :=
  { a := min x y
    b := max x y
    evidences := []
    dir_ab := []
    dir_ba := []
    dir_un := []
    pos_ab := []
    pos_ba := []
    neg_ab := []
    neg_ba := [] }

/-- Lookup of a `direction` slot. -/
def direction (i : Interaction) : DirKey → Evidences
  | .ab => i.dir_ab
  | .ba => i.dir_ba
  | .undirected => i.dir_un

/-- Python `Interaction.direction_key` (interaction.py:207-219): `'undirected'`
maps to itself; a pair maps to the `a_b` or `b_a` key when its members are
the interaction's endpoints in that order, otherwise to `None`. -/
def directionKey (i : Interaction) : RawDir → Option DirKey
  | .undirected => some .undirected
  | .pair x y =>
      if x = i.a ∧ y = i.b then some .ab
      else if x = i.b ∧ y = i.a then some .ba
      else none

/-- Python `Interaction.add_evidence` (interaction.py:227-291): resolve the
direction key (no-op when it does not match the interaction), add the
evidence to `evidences` and to the matching `direction` slot, and when the
key is directed route it additionally into `positive` (effect `1`) or
`negative` (effect `-1`). -/
def add_evidence (i : Interaction) (ev : Evidence) (dir : RawDir)
    (effect : Int) : Interaction :=
  match i.directionKey dir with
  | none => i
  | some d =>
    let i := { i with evidences := Evidences.addEvidence i.evidences ev }
    match d with
    | .undirected => { i with dir_un := Evidences.addEvidence i.dir_un ev }
    | .ab =>
        let i := { i with dir_ab := Evidences.addEvidence i.dir_ab ev }
        if effect = 1 then
          { i with pos_ab := Evidences.addEvidence i.pos_ab ev }
        else if effect = -1 then
          { i with neg_ab := Evidences.addEvidence i.neg_ab ev }
        else i
    | .ba =>
        let i := { i with dir_ba := Evidences.addEvidence i.dir_ba ev }
        if effect = 1 then
          { i with pos_ba := Evidences.addEvidence i.pos_ba ev }
        else if effect = -1 then
          { i with neg_ba := Evidences.addEvidence i.neg_ba ev }
        else i

/-- Python `Interaction.merge` (interaction.py:1605-1635): requires matching
endpoint keys (otherwise logged and the operation is a no-op); unions the
`evidences` container and every direction and sign slot of `other` into
the corresponding slot of `self`. -/
def merge (i other : Interaction) : Interaction :=
  if i.a = other.a ∧ i.b = other.b then
    { i with
      evidences := Evidences.add i.evidences other.evidences
      dir_ab := Evidences.add i.dir_ab other.dir_ab
      dir_ba := Evidences.add i.dir_ba other.dir_ba
      dir_un := Evidences.add i.dir_un other.dir_un
      pos_ab := Evidences.add i.pos_ab other.pos_ab
      pos_ba := Evidences.add i.pos_ba other.pos_ba
      neg_ab := Evidences.add i.neg_ab other.neg_ab
      neg_ba := Evidences.add i.neg_ba other.neg_ba }
  else i

/-- Python `Interaction.is_directed` (interaction.py:725-735):
`any(self.direction.values())` — note that the iteration covers all three
values of the `direction` dict, the `'undirected'` slot included. -/
def is_directed (i : Interaction) : Bool :=
  !i.dir_ab.isEmpty || !i.dir_ba.isEmpty || !i.dir_un.isEmpty

/-- Python `Interaction.get_references()` with default arguments
(interaction.py:1779-1789, via `_get` and `get_evidences`): the distinct
references over the whole `evidences` container. -/
def get_references (i : Interaction) : List Nat :=
  Evidences.getReferences i.evidences

/-- The two directed keys (the keys of the `positive` / `negative`
dicts). -/
inductive DirPair where
  | ab
  | ba
deriving DecidableEq, Repr

def positive (i : Interaction) : DirPair → Evidences
  | .ab => i.pos_ab
  | .ba => i.pos_ba

def negative (i : Interaction) : DirPair → Evidences
  | .ab => i.neg_ab
  | .ba => i.neg_ba

/-- The `direction` argument of `get_evidences`: Python `None`, `True`
(any directed) or a key (a node pair or `'undirected'`). -/
inductive DirSel where
  | noDir
  | anyDirected
  | key (d : RawDir)
deriving DecidableEq, Repr

/-- The `effect` argument of `get_evidences`: Python `None`, `True`
(any signed) or `'positive'` / `'negative'`. -/
inductive EffSel where
  | noEff
  | anySigned
  | positive
  | negative
deriving DecidableEq, Repr

/-- The Python membership test `direction in self.positive`: the raw
`direction` argument is a key of the sign dicts iff it is the ordered
pair `(a, b)` or `(b, a)`. -/
def posDictKey (i : Interaction) : DirSel → Option DirPair
  | .key (.pair x y) =>
      if x = i.a ∧ y = i.b then some .ab
      else if x = i.b ∧ y = i.a then some .ba
      else none
  | _ => none

/-- The Python membership test `direction in self.direction`: additionally
admits the `'undirected'` key. -/
def dirDictKey (i : Interaction) : DirSel → Option DirKey
  | .key (.pair x y) =>
      if x = i.a ∧ y = i.b then some .ab
      else if x = i.b ∧ y = i.a then some .ba
      else none
  | .key .undirected => some .undirected
  | _ => none

/-- Python `sum(...)` over `Evidences` values: union, starting from the
empty container. -/
def sumEvs (l : List Evidences) : Evidences :=
  l.foldl Evidences.add []

/-- Python `Interaction.which_directions()` with default arguments
(interaction.py:530-569): the directed keys whose evidence slot is
non-empty, in the iteration order of the `direction` dict. -/
def whichDirs (i : Interaction) : List DirKey :=
  (if !i.dir_ab.isEmpty then [DirKey.ab] else []) ++
  (if !i.dir_ba.isEmpty then [DirKey.ba] else [])

/-- Python `Interaction.get_evidences` (interaction.py:1712-1777).  The slot
selection follows the source's chained conditional exactly; in particular
the `# only negative` branch (interaction.py:1742-1747) reads
`self.positive`, exactly as the source does.  The selected container is
then passed through the §4.3 evidence filter. -/
def get_evidences (i : Interaction) (dir : DirSel) (eff : EffSel)
    (f : Evidences.EvFilter) : Evidences :=
  let evs :=
    match eff with
    -- any signed
    | .anySigned =>
        sumEvs [i.pos_ab, i.pos_ba, i.neg_ab, i.neg_ba]
    -- only positive
    | .positive =>
        match posDictKey i dir with
        | some d => i.positive d
        | none => sumEvs [i.pos_ab, i.pos_ba]
    -- only negative: the source returns from the positive dict here
    | .negative =>
        match posDictKey i dir with
        | some d => i.positive d
        | none => sumEvs [i.pos_ab, i.pos_ba]
    | .noEff =>
        match dir with
        -- any directed
        | .anyDirected => sumEvs ((whichDirs i).map (fun d => i.direction d))
        | _ =>
            match dirDictKey i dir with
            -- one specific direction
            | some d => i.direction d
            -- all evidences (default)
            | none => i.evidences
  Evidences.filterBy evs f

/-- The counting method dispatch shared by `majority_dir` and
`majority_sign` (interaction.py:1439-1445, 1491-1497):
`count_references` if `by_references`, else `count_curation_effort` if
`by_reference_resource_pairs`, else `count_resources`; the counts are
taken with the `interaction_type` constraint and, when `only_primary`,
with `via = False`. -/
def dirCount (evs : Evidences) (only_interaction_type : Option String)
    (only_primary by_references by_reference_resource_pairs : Bool) : Nat :=
  let f : Evidences.EvFilter :=
    { interaction_type := only_interaction_type
      via := if only_primary then .primaryOnly else .noConstraint }
  if by_references then Evidences.countReferences evs f
  else if by_reference_resource_pairs then Evidences.countCurationEffort evs f
  else Evidences.countResources evs f

/-- Result of `majority_dir`: a directed key, the sentinel
`'undirected'`, or Python `None` (a non-zero tie), here `tie`. -/
inductive MajDir where
  | ab
  | ba
  | undirected
  | tie
deriving DecidableEq, Repr

/-- Python `Interaction.majority_dir` (interaction.py:1412-1464). -/
def majority_dir (i : Interaction) (only_interaction_type : Option String)
    (only_primary : Bool) (by_references : Bool)
    (by_reference_resource_pairs : Bool) : MajDir :=
  if i.dir_ab.isEmpty && i.dir_ba.isEmpty then .undirected
  else
    let n_ab := dirCount i.dir_ab only_interaction_type only_primary
      by_references by_reference_resource_pairs
    let n_ba := dirCount i.dir_ba only_interaction_type only_primary
      by_references by_reference_resource_pairs
    if n_ab = 0 ∧ n_ba = 0 then .undirected
    else if n_ab = n_ba then .tie
    else if n_ab > n_ba then .ab
    else .ba

/-- Python `Interaction.majority_sign` (interaction.py:1467-1515): an association
list keyed by the two directed keys; each value is the pair of flags
`[0 < n_pos >= n_neg, 0 < n_neg >= n_pos]`.  Every key receives a value: the
source assigns `result[_dir]` unconditionally for both directions. -/
def majority_sign (i : Interaction) (only_interaction_type : Option String)
    (only_primary : Bool) (by_references : Bool)
    (by_reference_resource_pairs : Bool) :
    List (DirPair × (Bool × Bool)) :=
  [DirPair.ab, DirPair.ba].map (fun d =>
    let n_pos := dirCount (i.positive d) only_interaction_type only_primary
      by_references by_reference_resource_pairs
    let n_neg := dirCount (i.negative d) only_interaction_type only_primary
      by_references by_reference_resource_pairs
    (d, (decide (0 < n_pos ∧ n_neg ≤ n_pos),
         decide (0 < n_neg ∧ n_pos ≤ n_neg))))

inductive DirCat where
  | directed
  | undirected
deriving DecidableEq, Repr

inductive SignCat where
  | positive
  | negative
  | unknown
deriving DecidableEq, Repr

/-- One element of the list returned by `consensus`:
`[source, target, directed|undirected, positive|negative|unknown]`. -/
structure ConsensusRow where
  src : Nat
  tgt : Nat
  dircat : DirCat
  sign : SignCat
deriving DecidableEq, Repr

def dirPairSrc (i : Interaction) : DirPair → Nat
  | .ab => i.a
  | .ba => i.b

def dirPairTgt (i : Interaction) : DirPair → Nat
  | .ab => i.b
  | .ba => i.a

/-- Python `Interaction.consensus` (interaction.py:1518-1599).  The dictionary
lookup `_effect[d]` is modelled by the association-list lookup; the
source's `else` branch (`_effect[d] is None`, "directed with unknown
effect", interaction.py:1589-1597) corresponds to the `none` case. -/
def consensus (i : Interaction) (only_interaction_type : Option String)
    (only_primary : Bool) (by_references : Bool)
    (by_reference_resource_pairs : Bool) : List ConsensusRow :=
  let _dir := i.majority_dir only_interaction_type only_primary
    by_references by_reference_resource_pairs
  let _effect := i.majority_sign only_interaction_type only_primary
    by_references by_reference_resource_pairs
  match _dir with
  | .undirected => [⟨i.a, i.b, .undirected, .unknown⟩]
  | _dir =>
    let dirs : List DirPair :=
      match _dir with
      | .tie => [.ab, .ba]
      | .ab => [.ab]
      | .ba => [.ba]
      | .undirected => []
    dirs.flatMap (fun d =>
      match _effect.find? (fun p => p.1 = d) with
      | some p =>
          (if p.2.1 then [ConsensusRow.mk (dirPairSrc i d) (dirPairTgt i d)
            .directed .positive] else []) ++
          (if p.2.2 then [ConsensusRow.mk (dirPairSrc i d) (dirPairTgt i d)
            .directed .negative] else [])
      -- directed with unknown effect
      | none => [ConsensusRow.mk (dirPairSrc i d) (dirPairTgt i d)
          .directed .unknown])

/-- Invariant I1 of the spec (§3, §8): every evidence of a `positive` or
`negative` slot also appears (as an evidence, i.e. by resource) in the
`direction` slot of the same key and in the overall `evidences`
container. -/
def satI1 (i : Interaction) : Bool :=
  Evidences.subRes i.pos_ab i.dir_ab && Evidences.subRes i.pos_ab i.evidences &&
  Evidences.subRes i.pos_ba i.dir_ba && Evidences.subRes i.pos_ba i.evidences &&
  Evidences.subRes i.neg_ab i.dir_ab && Evidences.subRes i.neg_ab i.evidences &&
  Evidences.subRes i.neg_ba i.dir_ba && Evidences.subRes i.neg_ba i.evidences

/-- Names for the eight evidence slots of an interaction. -/
inductive Slot where
  | evAll
  | dAB
  | dBA
  | dUN
  | pAB
  | pBA
  | nAB
  | nBA
deriving DecidableEq, Repr

/-- Slot selector. -/
def slotGet (i : Interaction) : Slot → Evidences
  | .evAll => i.evidences
  | .dAB => i.dir_ab
  | .dBA => i.dir_ba
  | .dUN => i.dir_un
  | .pAB => i.pos_ab
  | .pBA => i.pos_ba
  | .nAB => i.neg_ab
  | .nBA => i.neg_ba

/-- Modelled from the spec: `get_interaction_types` is called by
`Network.add_interaction` (network.py:2102-2108) but is not under `src/`;
per §3/§4.3 an interaction type is an attribute of the evidences'
resources, so this is the set of interaction types over the interaction's
`evidences` container. -/
def get_interaction_types (i : Interaction) : List String :=
  (i.evidences.map (fun e => e.resource.interaction_type)).dedup

/-- Removes every evidence of the given interaction type from a
container. -/
def removeItype (evs : Evidences) (t : String) : Evidences :=
  evs.filter (fun e => e.resource.interaction_type ≠ t)

/-- Modelled from the spec: `unset_interaction_type` is called by
`Network.add_interaction` (network.py:2111) but is not under `src/`;
following the evidence algebra of §4.3 and the `unset_*` family of
interaction.py, it removes every evidence whose resource carries the
given interaction type, from every slot. -/
def unset_interaction_type (i : Interaction) (t : String) : Interaction :=
  { i with
    evidences := removeItype i.evidences t
    dir_ab := removeItype i.dir_ab t
    dir_ba := removeItype i.dir_ba t
    dir_un := removeItype i.dir_un t
    pos_ab := removeItype i.pos_ab t
    pos_ba := removeItype i.pos_ba t
    neg_ab := removeItype i.neg_ab t
    neg_ba := removeItype i.neg_ba t }

end Interaction

/-! ## Network (`src/pypath/core/network.py`) -/

/-- Python `pypath.core.network.Network` (network.py:487-497): the interaction
map keyed by the canonical endpoint pair, the node map and the
adjacency index (`interactions_by_nodes`, a `defaultdict(set)`).  Maps
are modelled as insertion-ordered association lists; `nodes_by_label`
is omitted (labels play no part in any claim; with entities modelled by
their identifier it would duplicate `nodes`). -/
structure Network where
  interactions : List ((Nat × Nat) × Interaction)
  nodes : List Nat
  interactions_by_nodes : List (Nat × List (Nat × Nat))
deriving DecidableEq, Repr

namespace Network

/-- The empty network (`Network.reset`, network.py:487-497). -/
def empty : Network := ⟨[], [], []⟩

/-- Python `len(self.nodes)` (network.py:1946-1948). -/
def vcount (n : Network) : Nat := n.nodes.length

/-- Python `len(self.interactions)` (network.py:1952-1954). -/
def ecount (n : Network) : Nat := n.interactions.length

/-- Dict lookup in the interaction map. -/
def lookupIa (n : Network) (k : Nat × Nat) : Option Interaction :=
  (n.interactions.find? (fun kv => kv.1 = k)).map (·.2)

/-- In-place update of the value stored under an existing key. -/
def updateIa (m : List ((Nat × Nat) × Interaction)) (k : Nat × Nat)
    (v : Interaction) : List ((Nat × Nat) × Interaction) :=
  m.map (fun kv => if kv.1 = k then (k, v) else kv)

/-- Lookup in the adjacency index. -/
def adjGet (adj : List (Nat × List (Nat × Nat))) (x : Nat) :
    Option (List (Nat × Nat)) :=
  (adj.find? (fun kv => kv.1 = x)).map (·.2)

/-- Python `self.interactions_by_nodes[x].add(key)` on a `defaultdict(set)`:
creates the entry when absent. -/
def adjAddKey (adj : List (Nat × List (Nat × Nat))) (x : Nat)
    (k : Nat × Nat) : List (Nat × List (Nat × Nat)) :=
  if adj.any (fun kv => kv.1 = x) then
    adj.map (fun kv =>
      if kv.1 = x then
        (kv.1, if kv.2.contains k then kv.2 else kv.2 ++ [k])
      else kv)
  else adj ++ [(x, [k])]

/-- Python `self.interactions_by_nodes[x] -= keys` on a `defaultdict(set)`:
creates an empty entry when absent. -/
def adjSubKeys (adj : List (Nat × List (Nat × Nat))) (x : Nat)
    (ks : List (Nat × Nat)) : List (Nat × List (Nat × Nat)) :=
  if adj.any (fun kv => kv.1 = x) then
    adj.map (fun kv =>
      if kv.1 = x then (kv.1, kv.2.filter (fun k => ¬ ks.contains k))
      else kv)
  else adj ++ [(x, [])]

/-- Python `Network.remove_node` (network.py:2157-2184) invoked on a node of zero
degree (the only way `remove_interaction` reaches it): pops the node and
its adjacency entry; the loop over its (empty) interaction set is
vacuous. -/
def removeIsolated (n : Network) (x : Nat) : Network :=
  { n with
    nodes := n.nodes.filter (fun y => y ≠ x)
    interactions_by_nodes :=
      n.interactions_by_nodes.filter (fun kv => kv.1 ≠ x) }

/-- Python `Network.remove_interaction` (network.py:2187-2221): pops both
orderings of the key, subtracts them from both adjacency entries, and
removes each endpoint that is left with an empty adjacency entry. -/
def remove_interaction (n : Network) (a b : Nat) : Network :=
  let ks := [(a, b), (b, a)]
  let n : Network :=
    { n with
      interactions := n.interactions.filter (fun kv => ¬ ks.contains kv.1)
      interactions_by_nodes :=
        adjSubKeys (adjSubKeys n.interactions_by_nodes a ks) b ks }
  let n := if adjGet n.interactions_by_nodes a = some [] then
    removeIsolated n a else n
  if adjGet n.interactions_by_nodes b = some [] then
    removeIsolated n b else n

/-- Python `Network.numof_interactions_per_reference` (network.py:2718-2731)
evaluated at one reference: each interaction contributes its distinct
reference set once to the `Counter`, so the count of `r` is the number of
interactions citing `r`. -/
def numofInteractionsPerRef (n : Network) (r : Nat) : Nat :=
  (n.interactions.filter (fun kv => kv.2.get_references.contains r)).length

/-- A reference is high-throughput iff its interaction count is strictly
above the threshold (network.py:2633-2637). -/
def isHtp (n : Network) (threshold : Nat) (r : Nat) : Bool :=
  threshold < numofInteractionsPerRef n r

/-- The removal condition of `Network.remove_htp` (network.py:2644-2653):
`not ia.get_references() - htp_refs` (every reference of the interaction
is HTP — vacuously true without references) and
`not keep_directed or not ia.is_directed()`. -/
def htpCondition (n : Network) (threshold : Nat) (keep_directed : Bool)
    (ia : Interaction) : Bool :=
  ia.get_references.all (fun r => isHtp n threshold r) &&
  (!keep_directed || !ia.is_directed)

/-- Python `Network.remove_htp` (network.py:2620-2670): collect the keys whose
interaction satisfies the condition, then remove them. -/
def remove_htp (n : Network) (threshold : Nat) (keep_directed : Bool) :
    Network :=
  let to_remove := (n.interactions.filter
    (fun kv => htpCondition n threshold keep_directed kv.2)).map (·.1)
  to_remove.foldl (fun acc k => acc.remove_interaction k.1 k.2) n

/-- The removal condition of `Network.remove_undirected`
(network.py:2691-2696): `ia.is_directed() and (not min_refs or
len(ia.get_references()) < min_refs)` — note that the source tests
`is_directed()`, and that Python's `not min_refs` is also true for
`min_refs = 0`. -/
def undirectedCondition (min_refs : Option Nat) (ia : Interaction) : Bool :=
  ia.is_directed &&
  (match min_refs with
    | none => true
    | some k => decide (k = 0) || decide (ia.get_references.length < k))

/-- Python `Network.remove_undirected` (network.py:2673-2715).  The source
removes inside the loop over the live dict; the removed key set is
decided by the pre-state, which is what is modelled (collect, then
remove). -/
def remove_undirected (n : Network) (min_refs : Option Nat) : Network :=
  let to_remove := (n.interactions.filter
    (fun kv => undirectedCondition min_refs kv.2)).map (·.1)
  to_remove.foldl (fun acc k => acc.remove_interaction k.1 k.2) n

/-- Python `Network.add_node` (network.py:2128-2154): merging into an existing
entity does not change the node map on identifier-modelled entities;
a new entity is inserted only when `add` is true. -/
def add_node (n : Network) (x : Nat) (add : Bool) : Network :=
  if n.nodes.contains x then n
  else if add then { n with nodes := n.nodes ++ [x] } else n

/-- The tail of `Network.add_interaction` (network.py:2119-2125):
`update_attrs` (not under `src/`; it only touches the free-form attribute
map, which no claim observes, so it has no effect on the modelled state),
the two `add_node` calls with `add = not only_directions`, and the two
adjacency insertions. -/
def addInteractionPost (n : Network) (ia : Interaction)
    (key : Nat × Nat) (only_directions : Bool) : Network :=
  let n := n.add_node ia.a (!only_directions)
  let n := n.add_node ia.b (!only_directions)
  { n with
    interactions_by_nodes :=
      adjAddKey (adjAddKey n.interactions_by_nodes ia.a key) ia.b key }

/-- Python `Network.add_interaction` (network.py:2059-2125). -/
def add_interaction (n : Network) (ia : Interaction)
    (only_directions : Bool) : Network :=
  let key := (ia.a, ia.b)
  match n.lookupIa key with
  | none =>
    if only_directions then n
    else
      let n := { n with interactions := n.interactions ++ [(key, ia)] }
      addInteractionPost n ia key only_directions
  | some existing =>
    if only_directions then
      if (existing.get_interaction_types).any
          (fun t => (ia.get_interaction_types).contains t) then
        let ia2 := ((ia.get_interaction_types).filter
          (fun t => ¬ (existing.get_interaction_types).contains t)).foldl
          Interaction.unset_interaction_type ia
        let n := { n with
          interactions := updateIa n.interactions key (existing.merge ia2) }
        addInteractionPost n ia key only_directions
      else n
    else
      let n := { n with
        interactions := updateIa n.interactions key (existing.merge ia) }
      addInteractionPost n ia key only_directions

end Network

/-! ## The `_read_resource` line loop (network.py:999-1004) -/

/-- The indices of the input records that survive the skip test of the
ingest loop (network.py:999-1004):
`for lnum, line in enumerate(infile): if len(line) <= 1 or
(lnum == 1 and networkinput.header): continue`. -/
def processedIndices (lines : List String) (header : Bool) : List Nat :=
  (lines.enum.filter
    (fun p => ¬ (p.2.length ≤ 1 ∨ (p.1 = 1 ∧ header = true)))).map (·.1)

/-! ## Path search (`Network.find_paths`, network.py:3089-3287) -/

/-- Python `find_all_paths_aux` (network.py:3198-3243).  The per-hop
neighbor query `self.partners(entity = start,
**interaction_args[len(path) - 1])` is abstracted by
`partnersF : hop index → node → neighbors`; everything else follows the
source: append the current node, yield the path when it is long enough
and (it reached `end`, or `end` is `None` and `loops` is off and the path
has maximal length, or `loops` is on and the path is closed), otherwise
expand — excluding already-visited nodes unless `loops` is on.  The
`fuel` argument makes the recursion structural; the expansion guard
`len(path) <= maxlen` bounds the recursion depth by `maxlen + 1`, so with
the initial fuel `maxlen + 1` supplied by `findPaths` the fuel never runs
out and the zero-fuel case is unreachable. -/
def findAllPathsAux (partnersF : Nat → Nat → List Nat) (loops : Bool)
    (minlen maxlen : Nat) (endN : Option Nat) :
    Nat → Nat → List Nat → List (List Nat)
  | 0, _, _ => []
  | fuel + 1, start, path =>
    let path2 := path ++ [start]
    if minlen + 1 ≤ path2.length ∧
        (endN = some start ∨
          (endN = none ∧ loops = false ∧ path2.length = maxlen + 1) ∨
          (loops = true ∧ path2.head? = path2.getLast?)) then
      [path2]
    else if path2.length ≤ maxlen then
      let nbrs := partnersF (path2.length - 1) start
      let next := if loops then nbrs
        else nbrs.filter (fun x => ¬ path2.contains x)
      next.flatMap (fun node =>
        findAllPathsAux partnersF loops minlen maxlen endN fuel node path2)
    else []

/-- Python `Network.find_paths` (network.py:3089-3287): clamp `minlen` to at
least 1, expand `end = None` to the single target `None`, and
concatenate the auxiliary search over every start/end pair. -/
def findPaths (partnersF : Nat → Nat → List Nat) (starts : List Nat)
    (ends : Option (List Nat)) (loops : Bool) (minlen maxlen : Nat) :
    List (List Nat) :=
  let minlen := max 1 minlen
  let endList : List (Option Nat) :=
    match ends with
    | none => [none]
    | some l => l.map some
  starts.flatMap (fun s => endList.flatMap (fun e =>
    findAllPathsAux partnersF loops minlen maxlen e (maxlen + 1) s []))

/-! ## Concrete instances used by the evaluations and witnesses -/

/-- A primary resource of interaction type `t1`. -/
def rT1 : NetworkResource := ⟨"r1", "t1", "m", none⟩

/-- A second primary resource of interaction type `t1`. -/
def rT2 : NetworkResource := ⟨"r2", "t1", "m", none⟩

/-- A primary resource of interaction type `t2`. -/
def rT3 : NetworkResource := ⟨"r3", "t2", "m", none⟩

/-- An interaction between nodes 1 and 2 with one directed evidence
(`A → B`, reference 100). -/
def cIaDirected : Interaction :=
  (Interaction.make 1 2).add_evidence ⟨rT1, [100]⟩ (.pair 1 2) 0

/-- A network holding only `cIaDirected`. -/
def cNetDirected : Network := Network.empty.add_interaction cIaDirected false

/-- An interaction with one positive and one negative evidence, both for
the `a → b` direction. -/
def cIaSigned : Interaction :=
  ((Interaction.make 1 2).add_evidence ⟨rT1, [1]⟩ (.pair 1 2) 1
    ).add_evidence ⟨rT2, [2]⟩ (.pair 1 2) (-1)

/-- An interaction with only undirected evidence, citing reference 7. -/
def cIaUndir : Interaction :=
  (Interaction.make 1 2).add_evidence ⟨rT1, [7]⟩ .undirected 0

/-- A network holding only `cIaUndir`. -/
def cNetUndir : Network := Network.empty.add_interaction cIaUndir false

/-- An interaction with one directed evidence carrying no references. -/
def cIaNoRef : Interaction :=
  (Interaction.make 1 2).add_evidence ⟨rT1, []⟩ (.pair 1 2) 0

/-- An interaction with one directed evidence in each direction (a
mutual interaction with one reference per side). -/
def cIaMutual : Interaction :=
  ((Interaction.make 1 2).add_evidence ⟨rT1, [1]⟩ (.pair 1 2) 0
    ).add_evidence ⟨rT2, [2]⟩ (.pair 2 1) 0

/-- An interaction with one directed evidence in the `b → a`
direction. -/
def cIaRev : Interaction :=
  (Interaction.make 1 2).add_evidence ⟨rT1, [1]⟩ (.pair 2 1) 0

/-- An incoming interaction for the `only_directions` scenario: one
directed evidence of the shared interaction type `t1` (resource `r2`)
and one of the non-shared type `t2` (resource `r3`). -/
def cIaIncoming : Interaction :=
  ((Interaction.make 1 2).add_evidence ⟨rT2, [200]⟩ (.pair 1 2) 0
    ).add_evidence ⟨rT3, [300]⟩ (.pair 1 2) 0

/-- An interaction whose only evidence is of interaction type `t2`. -/
def cIaT2 : Interaction :=
  (Interaction.make 1 2).add_evidence ⟨rT3, [5]⟩ .undirected 0

/-- A network holding only `cIaT2` (interaction-type set {t2}). -/
def cNetT2 : Network := Network.empty.add_interaction cIaT2 false

/-- Adjacency of the 3-node loop graph `0 → {1, 2}`, `1 → {0}`,
`2 → {0}`, at every hop. -/
def cPfLoop : Nat → Nat → List Nat :=
  fun _ n => if n = 0 then [1, 2] else [0]

/-- Adjacency of the line graph `0 → 1 → 2`, at every hop. -/
def cPfLine : Nat → Nat → List Nat :=
  fun _ n => if n = 0 then [1] else if n = 1 then [2] else []

/-! ## C1 — `remove_undirected` -/

/-- C1: evaluation of `remove_undirected` at a network whose single
interaction carries directed evidence.  The claim says every interaction
with directed evidence is kept; the source removes interactions
satisfying `is_directed()` (network.py:2692), so the directed interaction
is removed — with `min_refs` unset and with `min_refs = 5` (its single
reference being fewer) alike, and the interaction-free network keeps
nothing. -/
theorem C1_remove_undirected_removes_directed :
    cIaDirected.is_directed = true ∧
    cIaDirected.dir_ab ≠ [] ∧
    (cNetDirected.remove_undirected none).interactions = [] ∧
    (cNetDirected.remove_undirected (some 5)).interactions = [] := by
  decide

/-! ## C2 — the ingest header skip -/

/-- C2: evaluation of the ingest skip test.  With `header = true` the
claim says record 0 is skipped and record 1 is processed; the source
tests `lnum == 1` (network.py:1001) while `enumerate` starts at 0, so the
header record (index 0) is processed and the first data record (index 1)
is dropped.  Empty lines are skipped at any position. -/
theorem C2_header_skip_off_by_one :
    processedIndices ["id_a\tid_b", "P1\tP2"] true = [0] ∧
    processedIndices ["", "P1\tP2", "", "P3\tP4"] false = [1, 3] := by
  decide

/-! ## C3 — `get_evidences` with `effect = 'negative'` -/

/-- C3: evaluation of `get_evidences(effect = 'negative')` at an
interaction with distinct positive (resource `r1`) and negative
(resource `r2`) evidence.  The claim says the negative slots are
returned; the `# only negative` branch of the source
(interaction.py:1742-1747) reads `self.positive`, so the positive slot
comes back — both without a direction and with the valid direction key
`(a, b)` — and it differs from the union of the negative slots. -/
theorem C3_negative_effect_reads_positive_dict :
    cIaSigned.get_evidences .noDir .negative Evidences.noFilter
      = [⟨rT1, [1]⟩] ∧
    cIaSigned.get_evidences (.key (.pair 1 2)) .negative Evidences.noFilter
      = [⟨rT1, [1]⟩] ∧
    Evidences.add cIaSigned.neg_ab cIaSigned.neg_ba = [⟨rT2, [2]⟩] ∧
    ([⟨rT1, [1]⟩] : Evidences) ≠ [⟨rT2, [2]⟩] := by
  decide

/-! ## C4 — `remove_htp` -/

/-- C4: evaluation of `remove_htp(threshold = 0, keep_directed = true)`
at a network whose single interaction has only undirected evidence and
whose single reference is HTP (1 interaction > threshold 0).  The claim
says such an interaction (all references HTP, no directed evidence) is
removed even when `keep_directed` is set; the source keeps it, because
`is_directed()` (interaction.py:735) also counts the `'undirected'` slot.
With `keep_directed = false` the same interaction is removed. -/
theorem C4_remove_htp_keeps_undirected_only :
    cIaUndir.dir_ab = [] ∧ cIaUndir.dir_ba = [] ∧ cIaUndir.dir_un ≠ [] ∧
    cIaUndir.get_references.all (cNetUndir.isHtp 0) = true ∧
    cNetUndir.remove_htp 0 true = cNetUndir ∧
    (cNetUndir.remove_htp 0 false).interactions = [] := by
  decide

/-! ## Lemmas about the evidence algebra -/

namespace Evidences

theorem resource_addEvidence_update (e x : Evidence) :
    (if x.resource = e.resource then
      { x with references := refUnion x.references e.references }
     else x).resource = x.resource := by
  split <;> rfl

theorem hasResource_addEvidence (evs : Evidences) (e : Evidence)
    (r : NetworkResource) :
    hasResource (addEvidence evs e) r
      = (hasResource evs r || decide (e.resource = r)) := by
  by_cases h : evs.any (fun x => x.resource = e.resource)
  · have hmap : hasResource (addEvidence evs e) r = hasResource evs r := by
      simp only [addEvidence, if_pos h, hasResource, List.any_map]
      refine congrArg _ ?_
      funext x
      simp only [Function.comp_apply]
      rw [resource_addEvidence_update]
    rw [hmap]
    by_cases he : e.resource = r
    · have : hasResource evs r = true := by
        simp only [hasResource, List.any_eq_true] at h ⊢
        obtain ⟨x, hx, hxr⟩ := h
        exact ⟨x, hx, by simp_all⟩
      simp [this]
    · simp [he]
  · simp only [addEvidence, if_neg h, hasResource, List.any_append,
      List.any_cons, List.any_nil, Bool.or_false]

theorem hasResource_add (evs other : Evidences) (r : NetworkResource) :
    hasResource (add evs other) r
      = (hasResource evs r || hasResource other r) := by
  induction other generalizing evs with
  | nil => simp [add, hasResource]
  | cons o rest ih =>
    have hstep : add evs (o :: rest) = add (addEvidence evs o) rest := rfl
    rw [hstep, ih, hasResource_addEvidence]
    simp [hasResource, Bool.or_assoc]

theorem mem_addEvidence_res (evs : Evidences) (e x : Evidence)
    (hx : x ∈ addEvidence evs e) :
    x.resource = e.resource ∨ ∃ y ∈ evs, y.resource = x.resource := by
  by_cases h : evs.any (fun z => z.resource = e.resource)
  · simp only [addEvidence, if_pos h, List.mem_map] at hx
    obtain ⟨y, hy, hxy⟩ := hx
    right
    refine ⟨y, hy, ?_⟩
    rw [← hxy, resource_addEvidence_update]
  · simp only [addEvidence, if_neg h, List.mem_append,
      List.mem_singleton] at hx
    rcases hx with hx | hx
    · exact Or.inr ⟨x, hx, rfl⟩
    · exact Or.inl (by rw [hx])

theorem mem_add_res (evs other : Evidences) (x : Evidence)
    (hx : x ∈ add evs other) :
    (∃ y ∈ evs, y.resource = x.resource) ∨
    (∃ y ∈ other, y.resource = x.resource) := by
  induction other generalizing evs with
  | nil => exact Or.inl ⟨x, hx, rfl⟩
  | cons o rest ih =>
    have hstep : add evs (o :: rest) = add (addEvidence evs o) rest := rfl
    rw [hstep] at hx
    rcases ih _ hx with h | h
    · obtain ⟨y, hy, hyx⟩ := h
      rcases mem_addEvidence_res evs o y hy with h2 | h2
      · exact Or.inr ⟨o, List.mem_cons_self o rest, by rw [← hyx, h2]⟩
      · obtain ⟨z, hz, hzy⟩ := h2
        exact Or.inl ⟨z, hz, by rw [hzy, hyx]⟩
    · obtain ⟨y, hy, hyx⟩ := h
      exact Or.inr ⟨y, List.mem_cons_of_mem o hy, hyx⟩

theorem subRes_true_iff (xs ys : Evidences) :
    subRes xs ys = true ↔
      ∀ x ∈ xs, hasResource ys x.resource = true := by
  simp [subRes, List.all_eq_true]

theorem subRes_addEvidence_right (xs ys : Evidences) (e : Evidence)
    (h : subRes xs ys = true) : subRes xs (addEvidence ys e) = true := by
  rw [subRes_true_iff] at h ⊢
  intro x hx
  rw [hasResource_addEvidence, h x hx, Bool.true_or]

theorem subRes_addEvidence_both (xs ys : Evidences) (e : Evidence)
    (h : subRes xs ys = true) :
    subRes (addEvidence xs e) (addEvidence ys e) = true := by
  rw [subRes_true_iff] at h ⊢
  intro x hx
  rw [hasResource_addEvidence]
  rcases mem_addEvidence_res xs e x hx with h2 | h2
  · simp [h2]
  · obtain ⟨y, hy, hyx⟩ := h2
    rw [← hyx, h y hy, Bool.true_or]

theorem subRes_add_right (xs ys zs : Evidences)
    (h : subRes xs ys = true) : subRes xs (add ys zs) = true := by
  rw [subRes_true_iff] at h ⊢
  intro x hx
  rw [hasResource_add, h x hx, Bool.true_or]

theorem subRes_add_both (xs xs2 ys ys2 : Evidences)
    (h1 : subRes xs ys = true) (h2 : subRes xs2 ys2 = true) :
    subRes (add xs xs2) (add ys ys2) = true := by
  rw [subRes_true_iff] at h1 h2 ⊢
  intro x hx
  rw [hasResource_add]
  rcases mem_add_res xs xs2 x hx with h | h
  · obtain ⟨y, hy, hyx⟩ := h
    rw [← hyx, h1 y hy, Bool.true_or]
  · obtain ⟨y, hy, hyx⟩ := h
    rw [← hyx, h2 y hy, Bool.or_true]

end Evidences

/-! ## C8 — invariant I1 -/

theorem satI1_split (i : Interaction) :
    i.satI1 = true ↔
      (Evidences.subRes i.pos_ab i.dir_ab = true ∧
        Evidences.subRes i.pos_ab i.evidences = true) ∧
      (Evidences.subRes i.pos_ba i.dir_ba = true ∧
        Evidences.subRes i.pos_ba i.evidences = true) ∧
      (Evidences.subRes i.neg_ab i.dir_ab = true ∧
        Evidences.subRes i.neg_ab i.evidences = true) ∧
      (Evidences.subRes i.neg_ba i.dir_ba = true ∧
        Evidences.subRes i.neg_ba i.evidences = true) := by
  simp only [Interaction.satI1, Bool.and_eq_true]
  tauto

theorem satI1_add_evidence (i : Interaction) (ev : Evidence) (d : RawDir)
    (eff : Int) (hi : i.satI1 = true) :
    (i.add_evidence ev d eff).satI1 = true := by
  obtain ⟨⟨h1, h2⟩, ⟨h3, h4⟩, ⟨h5, h6⟩, ⟨h7, h8⟩⟩ := (satI1_split i).mp hi
  cases hd : i.directionKey d with
  | none => simpa [Interaction.add_evidence, hd] using hi
  | some dk =>
    cases dk with
    | undirected =>
      rw [satI1_split]
      simp only [Interaction.add_evidence, hd]
      exact ⟨⟨h1, Evidences.subRes_addEvidence_right _ _ _ h2⟩,
        ⟨h3, Evidences.subRes_addEvidence_right _ _ _ h4⟩,
        ⟨h5, Evidences.subRes_addEvidence_right _ _ _ h6⟩,
        ⟨h7, Evidences.subRes_addEvidence_right _ _ _ h8⟩⟩
    | ab =>
      by_cases he1 : eff = 1
      · rw [satI1_split]
        simp only [Interaction.add_evidence, hd, he1, if_pos]
        exact ⟨⟨Evidences.subRes_addEvidence_both _ _ _ h1,
            Evidences.subRes_addEvidence_both _ _ _ h2⟩,
          ⟨h3, Evidences.subRes_addEvidence_right _ _ _ h4⟩,
          ⟨Evidences.subRes_addEvidence_right _ _ _ h5,
            Evidences.subRes_addEvidence_right _ _ _ h6⟩,
          ⟨h7, Evidences.subRes_addEvidence_right _ _ _ h8⟩⟩
      · by_cases he2 : eff = -1
        · rw [satI1_split]
          simp only [Interaction.add_evidence, hd, he1, he2, if_neg, if_pos]
          norm_num
          exact ⟨⟨Evidences.subRes_addEvidence_right _ _ _ h1,
              Evidences.subRes_addEvidence_right _ _ _ h2⟩,
            ⟨h3, Evidences.subRes_addEvidence_right _ _ _ h4⟩,
            ⟨Evidences.subRes_addEvidence_both _ _ _ h5,
              Evidences.subRes_addEvidence_both _ _ _ h6⟩,
            ⟨h7, Evidences.subRes_addEvidence_right _ _ _ h8⟩⟩
        · rw [satI1_split]
          simp only [Interaction.add_evidence, hd, he1, he2, if_neg]
          norm_num [he1, he2]
          exact ⟨⟨Evidences.subRes_addEvidence_right _ _ _ h1,
              Evidences.subRes_addEvidence_right _ _ _ h2⟩,
            ⟨h3, Evidences.subRes_addEvidence_right _ _ _ h4⟩,
            ⟨Evidences.subRes_addEvidence_right _ _ _ h5,
              Evidences.subRes_addEvidence_right _ _ _ h6⟩,
            ⟨h7, Evidences.subRes_addEvidence_right _ _ _ h8⟩⟩
    | ba =>
      by_cases he1 : eff = 1
      · rw [satI1_split]
        simp only [Interaction.add_evidence, hd, he1, if_pos]
        exact ⟨⟨h1, Evidences.subRes_addEvidence_right _ _ _ h2⟩,
          ⟨Evidences.subRes_addEvidence_both _ _ _ h3,
            Evidences.subRes_addEvidence_both _ _ _ h4⟩,
          ⟨h5, Evidences.subRes_addEvidence_right _ _ _ h6⟩,
          ⟨Evidences.subRes_addEvidence_right _ _ _ h7,
            Evidences.subRes_addEvidence_right _ _ _ h8⟩⟩
      · by_cases he2 : eff = -1
        · rw [satI1_split]
          simp only [Interaction.add_evidence, hd, he1, he2, if_neg, if_pos]
          norm_num
          exact ⟨⟨h1, Evidences.subRes_addEvidence_right _ _ _ h2⟩,
            ⟨Evidences.subRes_addEvidence_right _ _ _ h3,
              Evidences.subRes_addEvidence_right _ _ _ h4⟩,
            ⟨h5, Evidences.subRes_addEvidence_right _ _ _ h6⟩,
            ⟨Evidences.subRes_addEvidence_both _ _ _ h7,
              Evidences.subRes_addEvidence_both _ _ _ h8⟩⟩
        · rw [satI1_split]
          simp only [Interaction.add_evidence, hd, he1, he2, if_neg]
          norm_num [he1, he2]
          exact ⟨⟨h1, Evidences.subRes_addEvidence_right _ _ _ h2⟩,
            ⟨Evidences.subRes_addEvidence_right _ _ _ h3,
              Evidences.subRes_addEvidence_right _ _ _ h4⟩,
            ⟨h5, Evidences.subRes_addEvidence_right _ _ _ h6⟩,
            ⟨Evidences.subRes_addEvidence_right _ _ _ h7,
              Evidences.subRes_addEvidence_right _ _ _ h8⟩⟩

theorem satI1_merge (i j : Interaction) (hi : i.satI1 = true)
    (hj : j.satI1 = true) : (i.merge j).satI1 = true := by
  obtain ⟨⟨h1, h2⟩, ⟨h3, h4⟩, ⟨h5, h6⟩, ⟨h7, h8⟩⟩ := (satI1_split i).mp hi
  obtain ⟨⟨g1, g2⟩, ⟨g3, g4⟩, ⟨g5, g6⟩, ⟨g7, g8⟩⟩ := (satI1_split j).mp hj
  by_cases hab : i.a = j.a ∧ i.b = j.b
  · rw [satI1_split]
    simp only [Interaction.merge, if_pos hab]
    exact ⟨⟨Evidences.subRes_add_both _ _ _ _ h1 g1,
        Evidences.subRes_add_both _ _ _ _ h2 g2⟩,
      ⟨Evidences.subRes_add_both _ _ _ _ h3 g3,
        Evidences.subRes_add_both _ _ _ _ h4 g4⟩,
      ⟨Evidences.subRes_add_both _ _ _ _ h5 g5,
        Evidences.subRes_add_both _ _ _ _ h6 g6⟩,
      ⟨Evidences.subRes_add_both _ _ _ _ h7 g7,
        Evidences.subRes_add_both _ _ _ _ h8 g8⟩⟩
  · simpa [Interaction.merge, hab] using hi

/-- C8: invariant I1 (every evidence of a `positive[d]` or `negative[d]`
slot also appears, by resource, in `direction[d]` and in `evidences`) is
preserved by `add_evidence` — for every evidence, raw direction argument
and effect — and by `merge`. -/
theorem C8_invariant_I1_preserved (i j : Interaction) (ev : Evidence)
    (d : RawDir) (eff : Int) (hi : i.satI1 = true) (hj : j.satI1 = true) :
    (i.add_evidence ev d eff).satI1 = true ∧ (i.merge j).satI1 = true :=
  ⟨satI1_add_evidence i ev d eff hi, satI1_merge i j hi hj⟩

/-- C8 witness: the preservation theorem applied to the concrete signed
interaction, the concrete undirected interaction, a fresh evidence and a
directed key with positive effect. -/
theorem C8_invariant_I1_witness :
    (cIaSigned.add_evidence ⟨rT3, [9]⟩ (.pair 2 1) 1).satI1 = true ∧
    (cIaSigned.merge cIaUndir).satI1 = true :=
  C8_invariant_I1_preserved cIaSigned cIaUndir ⟨rT3, [9]⟩ (.pair 2 1) 1
    (by decide) (by decide)

/-! ## C6 — `majority_dir` -/

theorem filterBy_noConstraint (evs : Evidences) :
    Evidences.filterBy evs ⟨none, none, none, none, .noConstraint⟩ = evs := by
  simp [Evidences.filterBy, Evidences.matchesFilter, Evidences.matchVia,
    List.filter_eq_self]

theorem dirCountNil (it : Option String) (op br brp : Bool) :
    Interaction.dirCount [] it op br brp = 0 := by
  cases br <;> cases brp <;> rfl

theorem dirCount_resources_len (evs : Evidences) :
    Interaction.dirCount evs none false false false = evs.length := by
  simp [Interaction.dirCount, Evidences.countResources, filterBy_noConstraint]

theorem majority_dir_resources_not_undirected (i : Interaction)
    (h : i.dir_ab ≠ [] ∨ i.dir_ba ≠ []) :
    i.majority_dir none false false false ≠ .undirected := by
  unfold Interaction.majority_dir
  have hne : (i.dir_ab.isEmpty && i.dir_ba.isEmpty) = false := by
    rcases h with h | h <;> simp [List.isEmpty_iff, h]
  rw [hne]
  simp only [Bool.false_eq_true, if_false, dirCount_resources_len]
  have hcnt : ¬ (i.dir_ab.length = 0 ∧ i.dir_ba.length = 0) := by
    rcases h with h | h <;> simp [List.length_eq_zero, h]
  rw [if_neg hcnt]
  split
  · simp
  · split <;> simp

/-- C6 counterexample: an interaction with directed evidence in the
`(a, b)` direction whose evidence carries no references.  With no filters
and the source's default counting method (curation effort,
`by_reference_resource_pairs = True`) both counts are 0 and
`majority_dir` returns `'undirected'`, which is neither a directed key
nor `None` — refuting the claim's consequent. -/
theorem C6_majority_dir_counterexample :
    cIaNoRef.dir_ab ≠ [] ∧ cIaNoRef.dir_ba = [] ∧
    cIaNoRef.majority_dir none false false true = .undirected := by
  decide

/-- C6 (amended): under any counting method and filters, `majority_dir`
returns `'undirected'` when both per-direction counts are zero, `None`
(`tie`) when they are equal and non-zero, and otherwise the direction key
with the larger count; for an interaction with directed evidence, under
the resources counting method with no filters the result is never
`'undirected'` (i.e. it is the direction, its opposite, or `None`) —
under reference-based counting the result can additionally be
`'undirected'` when the directed evidences carry no references. -/
theorem C6_majority_dir_amended (i : Interaction) (it : Option String)
    (op br brp : Bool) :
    (Interaction.dirCount i.dir_ab it op br brp = 0 ∧
        Interaction.dirCount i.dir_ba it op br brp = 0 →
      i.majority_dir it op br brp = .undirected) ∧
    (Interaction.dirCount i.dir_ab it op br brp
          = Interaction.dirCount i.dir_ba it op br brp ∧
        0 < Interaction.dirCount i.dir_ab it op br brp →
      i.majority_dir it op br brp = .tie) ∧
    (Interaction.dirCount i.dir_ba it op br brp
          < Interaction.dirCount i.dir_ab it op br brp →
      i.majority_dir it op br brp = .ab) ∧
    (Interaction.dirCount i.dir_ab it op br brp
          < Interaction.dirCount i.dir_ba it op br brp →
      i.majority_dir it op br brp = .ba) ∧
    ((i.dir_ab ≠ [] ∨ i.dir_ba ≠ []) →
      i.majority_dir none false false false ≠ .undirected) := by
  refine ⟨?_, ?_, ?_, ?_, majority_dir_resources_not_undirected i⟩ <;>
    unfold Interaction.majority_dir <;>
    by_cases hemp : (i.dir_ab.isEmpty && i.dir_ba.isEmpty) = true
  · intro hz
    rw [if_pos hemp]
  · intro hz
    rw [Bool.not_eq_true] at hemp
    rw [hemp]
    simp only [Bool.false_eq_true, if_false]
    rw [if_pos hz]
  · intro hz
    obtain ⟨h1, h2⟩ := Bool.and_eq_true_iff.mp hemp
    rw [List.isEmpty_iff] at h1
    rw [h1, dirCountNil] at hz
    omega
  · intro hz
    rw [Bool.not_eq_true] at hemp
    rw [hemp]
    simp only [Bool.false_eq_true, if_false]
    rw [if_neg (by omega), if_pos hz.1]
  · intro hz
    obtain ⟨h1, h2⟩ := Bool.and_eq_true_iff.mp hemp
    rw [List.isEmpty_iff] at h1 h2
    rw [h1, h2, dirCountNil] at hz
    omega
  · intro hz
    rw [Bool.not_eq_true] at hemp
    rw [hemp]
    simp only [Bool.false_eq_true, if_false]
    rw [if_neg (by omega), if_neg (by omega), if_pos (by omega)]
  · intro hz
    obtain ⟨h1, h2⟩ := Bool.and_eq_true_iff.mp hemp
    rw [List.isEmpty_iff] at h1 h2
    rw [h1, h2, dirCountNil] at hz
    omega
  · intro hz
    rw [Bool.not_eq_true] at hemp
    rw [hemp]
    simp only [Bool.false_eq_true, if_false]
    rw [if_neg (by omega), if_neg (by omega), if_neg (by omega)]

/-- C6 witness: the amended theorem applied with each antecedent
discharged at a concrete interaction: both counts zero (directed evidence
without references), a non-zero tie (the mutual interaction), the larger
side winning in both directions, and the resources-method consequent at
the directed interaction. -/
theorem C6_majority_dir_witness :
    cIaNoRef.majority_dir none false false true = .undirected ∧
    cIaMutual.majority_dir none false false true = .tie ∧
    cIaDirected.majority_dir none false false true = .ab ∧
    cIaRev.majority_dir none false false true = .ba ∧
    cIaDirected.majority_dir none false false false ≠ .undirected :=
  ⟨(C6_majority_dir_amended cIaNoRef none false false true).1 (by decide),
    (C6_majority_dir_amended cIaMutual none false false true).2.1 (by decide),
    (C6_majority_dir_amended cIaDirected none false false true).2.2.1
      (by decide),
    (C6_majority_dir_amended cIaRev none false false true).2.2.2.1
      (by decide),
    (C6_majority_dir_amended cIaDirected none false false true).2.2.2.2
      (by decide)⟩

/-! ## C5 — `add_interaction` in `only_directions` mode -/

namespace Network

theorem add_node_false (n : Network) (x : Nat) : n.add_node x false = n := by
  unfold add_node
  split
  · rfl
  · rfl

theorem add_node_interactions (n : Network) (x : Nat) (b : Bool) :
    (n.add_node x b).interactions = n.interactions := by
  unfold add_node
  split
  · rfl
  · split <;> rfl

theorem addInteractionPost_interactions (n : Network) (ia : Interaction)
    (key : Nat × Nat) (od : Bool) :
    (addInteractionPost n ia key od).interactions = n.interactions := by
  unfold addInteractionPost
  simp [add_node_interactions]

theorem addInteractionPost_nodes_true (n : Network) (ia : Interaction)
    (key : Nat × Nat) :
    (addInteractionPost n ia key true).nodes = n.nodes := by
  unfold addInteractionPost
  simp [add_node_false]

theorem map_fst_updateIa (m : List ((Nat × Nat) × Interaction))
    (k : Nat × Nat) (v : Interaction) :
    (updateIa m k v).map (fun kv => kv.1) = m.map (fun kv => kv.1) := by
  unfold updateIa
  rw [List.map_map]
  refine List.map_congr_left ?_
  intro kv _
  simp only [Function.comp_apply]
  split
  · rename_i hk
    rw [hk]
  · rfl

theorem find?_updateIa (m : List ((Nat × Nat) × Interaction))
    (k : Nat × Nat) (v : Interaction)
    (h : (m.find? (fun kv => kv.1 = k)).isSome = true) :
    (updateIa m k v).find? (fun kv => kv.1 = k) = some (k, v) := by
  induction m with
  | nil => simp [List.find?] at h
  | cons kv rest ih =>
    by_cases hk : kv.1 = k
    · simp only [updateIa, List.map_cons, if_pos hk]
      rw [List.find?_cons_of_pos _ (by simp)]
    · simp only [updateIa, List.map_cons, if_neg hk]
      rw [List.find?_cons_of_neg _ (by simpa using hk)]
      rw [List.find?_cons_of_neg _ (by simpa using hk)] at h
      exact ih h

theorem lookupIa_isSome (n : Network) (k : Nat × Nat) (ex : Interaction)
    (h : n.lookupIa k = some ex) :
    (n.interactions.find? (fun kv => kv.1 = k)).isSome = true := by
  unfold lookupIa at h
  cases hf : n.interactions.find? (fun kv => kv.1 = k) with
  | none => rw [hf] at h; simp at h
  | some kv => simp [hf]

end Network

namespace Interaction

theorem slotGet_merge (i o : Interaction) (h : i.a = o.a ∧ i.b = o.b)
    (s : Slot) :
    slotGet (i.merge o) s = Evidences.add (slotGet i s) (slotGet o s) := by
  unfold merge
  rw [if_pos h]
  cases s <;> rfl

theorem slotGet_unset (i : Interaction) (t : String) (s : Slot) :
    slotGet (unset_interaction_type i t) s = removeItype (slotGet i s) t := by
  cases s <;> rfl

theorem unset_endpoints (i : Interaction) (t : String) :
    (unset_interaction_type i t).a = i.a ∧
    (unset_interaction_type i t).b = i.b :=
  ⟨rfl, rfl⟩

theorem foldl_unset_endpoints (ts : List String) :
    ∀ i : Interaction,
      (ts.foldl unset_interaction_type i).a = i.a ∧
      (ts.foldl unset_interaction_type i).b = i.b := by
  induction ts with
  | nil => intro i; exact ⟨rfl, rfl⟩
  | cons t rest ih =>
    intro i
    simp only [List.foldl_cons]
    exact ih (unset_interaction_type i t)

theorem slotGet_foldl_unset (ts : List String) :
    ∀ (i : Interaction) (s : Slot),
      slotGet (ts.foldl unset_interaction_type i) s
        = ts.foldl removeItype (slotGet i s) := by
  induction ts with
  | nil => intro i s; rfl
  | cons t rest ih =>
    intro i s
    simp only [List.foldl_cons]
    rw [ih, slotGet_unset]

theorem hasResource_removeItype_iff (evs : Evidences) (t : String)
    (r : NetworkResource) :
    Evidences.hasResource (removeItype evs t) r = true ↔
      Evidences.hasResource evs r = true ∧ r.interaction_type ≠ t := by
  simp only [removeItype, Evidences.hasResource, List.any_eq_true,
    List.mem_filter, decide_eq_true_eq, ne_eq, decide_not,
    Bool.not_eq_true', decide_eq_false_iff_not]
  constructor
  · rintro ⟨e, ⟨he, het⟩, her⟩
    exact ⟨⟨e, he, her⟩, by rw [← her]; exact het⟩
  · rintro ⟨⟨e, he, her⟩, hrt⟩
    exact ⟨e, ⟨he, by rw [her]; exact hrt⟩, her⟩

theorem hasResource_foldl_removeItype (ts : List String) :
    ∀ (evs : Evidences) (r : NetworkResource),
      Evidences.hasResource (ts.foldl removeItype evs) r = true ↔
        Evidences.hasResource evs r = true ∧ r.interaction_type ∉ ts := by
  induction ts with
  | nil => intro evs r; simp
  | cons t rest ih =>
    intro evs r
    simp only [List.foldl_cons, ih, hasResource_removeItype_iff,
      List.mem_cons]
    tauto

end Interaction

/-- C5 counterexample: the incoming interaction carries directed
(`a → b`) evidences of two interaction types, `t1` (resource `r2`,
shared with the existing interaction) and `t2` (resource `r3`, not
present in the existing one).  The interaction-type sets intersect, yet
after `add_interaction(..., only_directions = True)` the stored
interaction's `direction[(a, b)]` does not contain `r3`: the incoming
evidences of non-shared interaction types are discarded
(network.py:2106-2111), refuting "the incoming direction and sign
evidences are merged". -/
theorem C5_only_directions_counterexample :
    Evidences.hasResource cIaIncoming.dir_ab rT3 = true ∧
    (cIaUndir.get_interaction_types).any
      (fun t => (cIaIncoming.get_interaction_types).contains t) = true ∧
    ((cNetUndir.add_interaction cIaIncoming true).lookupIa (1, 2)).map
      (fun x => Evidences.hasResource x.dir_ab rT3) = some false := by
  decide

/-- C5 (amended): `add_interaction` with `only_directions = true` never
adds a node and never creates an interaction key (the node map and the
key sequence are unchanged, hence `vcount` and `ecount`); when the
endpoint pair is absent, or present with a disjoint interaction-type
set, the network is unchanged; when the pair exists and the
interaction-type sets intersect, the evidences of the incoming
interaction restricted to the interaction types of the existing one are
merged into every slot of the existing interaction — evidences of other
interaction types are discarded, existing evidences are kept. -/
theorem C5_only_directions_amended
    (N M : Network) (ia j ex st : Interaction)
    (s : Interaction.Slot) (r : NetworkResource)
    (hex : N.lookupIa (ia.a, ia.b) = some ex)
    (hend : ex.a = ia.a ∧ ex.b = ia.b)
    (hint : (ex.get_interaction_types).any
      (fun t => (ia.get_interaction_types).contains t) = true)
    (hst : (N.add_interaction ia true).lookupIa (ia.a, ia.b) = some st) :
    ((M.add_interaction j true).nodes = M.nodes ∧
      (M.add_interaction j true).interactions.map (fun kv => kv.1)
        = M.interactions.map (fun kv => kv.1)) ∧
    (M.lookupIa (j.a, j.b) = none → M.add_interaction j true = M) ∧
    ((∃ ex2, M.lookupIa (j.a, j.b) = some ex2 ∧
        (ex2.get_interaction_types).any
          (fun t => (j.get_interaction_types).contains t) = false) →
      M.add_interaction j true = M) ∧
    ((Evidences.hasResource (Interaction.slotGet ex s) r = true →
        Evidences.hasResource (Interaction.slotGet st s) r = true) ∧
      ((ex.get_interaction_types).contains r.interaction_type = true →
        Evidences.hasResource (Interaction.slotGet ia s) r = true →
        Evidences.hasResource (Interaction.slotGet st s) r = true) ∧
      ((ex.get_interaction_types).contains r.interaction_type = false →
        (ia.get_interaction_types).contains r.interaction_type = true →
        Evidences.hasResource (Interaction.slotGet st s) r
          = Evidences.hasResource (Interaction.slotGet ex s) r)) := by
  have hframe :
      (M.add_interaction j true).nodes = M.nodes ∧
      (M.add_interaction j true).interactions.map (fun kv => kv.1)
        = M.interactions.map (fun kv => kv.1) := by
    cases hM : M.lookupIa (j.a, j.b) with
    | none => simp [Network.add_interaction, hM]
    | some ex2 =>
      simp only [Network.add_interaction, hM]
      split
      · split
        · constructor
          · rw [Network.addInteractionPost_nodes_true]
          · rw [Network.addInteractionPost_interactions]
            exact Network.map_fst_updateIa _ _ _
        · exact ⟨rfl, rfl⟩
      · rename_i hf
        exact absurd trivial hf
  refine ⟨hframe, ?_, ?_, ?_⟩
  · intro hM
    simp [Network.add_interaction, hM]
  · rintro ⟨ex2, hM, hdisj⟩
    simp only [Network.add_interaction, hM]
    split
    · split
      · rename_i hc
        rw [hdisj] at hc
        simp at hc
      · rfl
    · rename_i hf
      exact absurd trivial hf
  · -- identify the stored interaction
    have hia2 : (N.add_interaction ia true).lookupIa (ia.a, ia.b)
        = some (ex.merge (((ia.get_interaction_types).filter
            (fun t => ¬ (ex.get_interaction_types).contains t)).foldl
          Interaction.unset_interaction_type ia)) := by
      simp only [Network.add_interaction, hex, if_pos hint, if_pos trivial]
      unfold Network.lookupIa
      rw [Network.addInteractionPost_interactions]
      rw [Network.find?_updateIa _ _ _ (Network.lookupIa_isSome N _ ex hex)]
      rfl
    rw [hia2] at hst
    set toRemove := (ia.get_interaction_types).filter
      (fun t => ¬ (ex.get_interaction_types).contains t) with htr
    set ia2 := toRemove.foldl Interaction.unset_interaction_type ia with hia2d
    have hstv : st = ex.merge ia2 := by
      injection hst.symm
    have hends2 : ex.a = ia2.a ∧ ex.b = ia2.b := by
      obtain ⟨ha, hb⟩ := Interaction.foldl_unset_endpoints toRemove ia
      rw [hia2d, ha, hb]
      exact hend
    have hslot : Interaction.slotGet st s
        = Evidences.add (Interaction.slotGet ex s)
            (Interaction.slotGet ia2 s) := by
      rw [hstv]
      exact Interaction.slotGet_merge ex ia2 hends2 s
    have hslot2 : Interaction.slotGet ia2 s
        = toRemove.foldl Interaction.removeItype (Interaction.slotGet ia s) :=
      Interaction.slotGet_foldl_unset toRemove ia s
    refine ⟨?_, ?_, ?_⟩
    · intro hmem
      rw [hslot, Evidences.hasResource_add, hmem, Bool.true_or]
    · intro hshared hmem
      have hnotin : r.interaction_type ∉ toRemove := by
        intro hmemt
        rw [htr, List.mem_filter] at hmemt
        have := hmemt.2
        simp only [decide_not, Bool.not_eq_true', decide_eq_true_eq] at this
        rw [hshared] at this
        simp at this
      have : Evidences.hasResource (Interaction.slotGet ia2 s) r = true := by
        rw [hslot2]
        exact (Interaction.hasResource_foldl_removeItype toRemove _ r).mpr
          ⟨hmem, hnotin⟩
      rw [hslot, Evidences.hasResource_add, this, Bool.or_true]
    · intro hnotshared hasin
      have hmemt : r.interaction_type ∈ toRemove := by
        rw [htr, List.mem_filter]
        constructor
        · simpa using hasin
        · simp only [decide_not, Bool.not_eq_true', decide_eq_false_iff_not]
          simpa using hnotshared
      have hfalse : Evidences.hasResource (Interaction.slotGet ia2 s) r
          = false := by
        rw [Bool.eq_false_iff]
        intro habs
        rw [hslot2] at habs
        exact ((Interaction.hasResource_foldl_removeItype toRemove _ r).mp
          habs).2 hmemt
      rw [hslot, Evidences.hasResource_add, hfalse, Bool.or_false]

/-- C5 witness: the amended theorem applied to the concrete
`only_directions` scenario — frame facts on the concrete network, the
no-key and disjoint-type skips, and the merged shared-type resource `r2`
present in the stored interaction's `(a, b)` direction slot. -/
theorem C5_only_directions_witness :
    ((cNetUndir.add_interaction cIaIncoming true).nodes = cNetUndir.nodes ∧
      (cNetUndir.add_interaction cIaIncoming true).interactions.map
        (fun kv => kv.1)
        = cNetUndir.interactions.map (fun kv => kv.1)) ∧
    (Network.empty.add_interaction cIaIncoming true = Network.empty) ∧
    (cNetT2.add_interaction cIaDirected true = cNetT2) ∧
    Evidences.hasResource
      ((((cNetUndir.add_interaction cIaIncoming true).lookupIa
        (1, 2)).getD cIaUndir).slotGet .dAB) rT2 = true := by
  obtain ⟨st, hst⟩ : ∃ st,
      (cNetUndir.add_interaction cIaIncoming true).lookupIa
        (cIaIncoming.a, cIaIncoming.b) = some st := ⟨_, rfl⟩
  have h := C5_only_directions_amended cNetUndir cNetUndir cIaIncoming
    cIaIncoming cIaUndir st .dAB rT2 (by decide) (by decide) (by decide) hst
  have h2 := C5_only_directions_amended cNetUndir Network.empty cIaIncoming
    cIaIncoming cIaUndir st .dAB rT2 (by decide) (by decide) (by decide) hst
  have h3 := C5_only_directions_amended cNetUndir cNetT2 cIaIncoming
    cIaDirected cIaUndir st .dAB rT2 (by decide) (by decide) (by decide) hst
  refine ⟨h.1, h2.2.1 (by decide), h3.2.2.1 ⟨cIaT2, by decide, by decide⟩, ?_⟩
  have hm := h.2.2.2.2.1 (by decide) (by decide)
  have hkey : (cIaIncoming.a, cIaIncoming.b) = ((1 : Nat), (2 : Nat)) := by
    decide
  rw [hkey] at hst
  rw [hst]
  exact hm

/-! ## C7 — `find_paths` -/

theorem aux_nodup (pf : Nat → Nat → List Nat) (minlen maxlen : Nat)
    (endN : Option Nat) :
    ∀ (fuel start : Nat) (path : List Nat),
      (path ++ [start]).Nodup →
      ∀ p ∈ findAllPathsAux pf false minlen maxlen endN fuel start path,
        p.Nodup := by
  intro fuel
  induction fuel with
  | zero =>
    intro start path hnd p hp
    simp [findAllPathsAux] at hp
  | succ fuel ih =>
    intro start path hnd p hp
    simp only [findAllPathsAux] at hp
    split at hp
    · rw [List.mem_singleton] at hp
      rw [hp]
      exact hnd
    · split at hp
      · rw [if_neg (by decide)] at hp
        rw [List.mem_flatMap] at hp
        obtain ⟨node, hnode, hp2⟩ := hp
        rw [List.mem_filter] at hnode
        have hnotin : node ∉ path ++ [start] := by
          simpa using hnode.2
        refine ih node (path ++ [start]) ?_ p hp2
        rw [← List.concat_eq_append]
        exact List.Nodup.concat hnotin hnd
      · simp at hp

theorem aux_start_endpoints (pf : Nat → Nat → List Nat) (maxlen : Nat)
    (endN : Option Nat) :
    ∀ (fuel : Nat) (path : List Nat) (start h : Nat) (rest : List Nat),
      path ++ [start] = h :: rest → h ∉ rest.dropLast →
      ∀ p ∈ findAllPathsAux pf true 1 maxlen endN fuel start path,
        ∃ t, p = h :: t ∧ h ∉ t.dropLast := by
  intro fuel
  induction fuel with
  | zero =>
    intro path start h rest hcons hnotin p hp
    simp [findAllPathsAux] at hp
  | succ fuel ih =>
    intro path start h rest hcons hnotin p hp
    simp only [findAllPathsAux] at hp
    split at hp
    · rw [List.mem_singleton] at hp
      exact ⟨rest, by rw [hp, hcons], hnotin⟩
    · rename_i hcond
      split at hp
      · rw [if_pos trivial] at hp
        rw [List.mem_flatMap] at hp
        obtain ⟨node, _hnode, hp2⟩ := hp
        have hrest : h ∉ rest := by
          cases path with
          | nil =>
            have : rest = [] := by
              have := hcons
              simp only [List.nil_append] at this
              exact ((List.cons.injEq _ _ _ _).mp this.symm).2
            rw [this]
            exact List.not_mem_nil h
          | cons p0 pt =>
            have hc : p0 = h ∧ pt ++ [start] = rest := by
              have := hcons
              simp only [List.cons_append, List.cons.injEq] at this
              exact this
            have hrest2 : rest = pt ++ [start] := hc.2.symm
            have hdl : rest.dropLast = pt := by
              rw [hrest2, List.dropLast_concat]
            have hne : h ≠ start := by
              intro heq
              apply hcond
              constructor
              · rw [hcons]
                simp only [List.length_cons, hrest2, List.length_append]
                omega
              · right
                right
                refine ⟨trivial, ?_⟩
                rw [hcons, List.head?_cons, ← hcons, List.getLast?_concat,
                  heq]
            rw [hrest2]
            intro hmem
            rcases List.mem_append.mp hmem with hmem | hmem
            · exact hnotin (hdl ▸ hmem)
            · rw [List.mem_singleton] at hmem
              exact hne hmem
        refine ih (path ++ [start]) node h (rest ++ [node]) ?_ ?_ p hp2
        · rw [hcons, List.cons_append]
        · rw [List.dropLast_concat]
          exact hrest
      · simp at hp

/-- C7 counterexample: in the 3-node graph `0 → {1, 2}`, `1 → {0}`,
`2 → {0}`, the call `find_paths(0, end = None, loops = true, minlen = 3,
maxlen = 4)` returns the path `[0, 1, 0, 2, 0]`, in which the start node
0 occurs as an intermediate node (position 2) — the loop-closing yield is
suppressed while the path is shorter than `minlen + 1`, so the walk runs
through the start node and closes later. -/
theorem C7_find_paths_counterexample :
    [0, 1, 0, 2, 0] ∈ findPaths cPfLoop [0] none true 3 4 ∧
    [0, 1, 0, 2, 0].tail.dropLast.contains 0 = true := by
  decide

/-- C7 (amended): when `loops = false`, no returned path contains any
node more than once (visited nodes are excluded from expansion); when
`loops = true` and `minlen ≤ 1` (the effective minimum after the
`max(1, minlen)` clamp), the start node occurs in a returned path only as
its first and possibly its last element, never as an intermediate node
(for `minlen ≥ 2` this can fail, as the counterexample shows). -/
theorem C7_find_paths_amended
    (pf1 pf2 : Nat → Nat → List Nat) (starts1 starts2 : List Nat)
    (ends1 ends2 : Option (List Nat))
    (minlen1 minlen2 maxlen1 maxlen2 : Nat)
    (p q t : List Nat) (hd : Nat)
    (hp : p ∈ findPaths pf1 starts1 ends1 false minlen1 maxlen1)
    (hmin : minlen2 ≤ 1)
    (hq : q ∈ findPaths pf2 starts2 ends2 true minlen2 maxlen2)
    (hqe : q = hd :: t) :
    p.Nodup ∧ hd ∉ t.dropLast := by
  constructor
  · simp only [findPaths, List.mem_flatMap] at hp
    obtain ⟨s, _hs, e, _he, hp⟩ := hp
    exact aux_nodup pf1 (max 1 minlen1) maxlen1 e (maxlen1 + 1) s []
      (by simp) p hp
  · simp only [findPaths, List.mem_flatMap] at hq
    obtain ⟨s, _hs, e, _he, hq⟩ := hq
    have hm : max 1 minlen2 = 1 := by omega
    rw [hm] at hq
    obtain ⟨t2, hqe2, hnot⟩ := aux_start_endpoints pf2 maxlen2 e
      (maxlen2 + 1) [] s s [] (by simp) (by simp) q hq
    rw [hqe] at hqe2
    obtain ⟨h1, h2⟩ := (List.cons.injEq _ _ _ _).mp hqe2
    rw [h1, h2]
    exact hnot

/-- C7 witness: part one applied to the line graph `0 → 1 → 2` (the path
`[0, 1, 2]` is duplicate-free), part two applied to the loop
`[0, 1, 0]` found with `minlen = 1` (0 does not occur strictly
inside). -/
theorem C7_find_paths_witness :
    ([0, 1, 2] : List Nat).Nodup ∧ (0 : Nat) ∉ ([1, 0] : List Nat).dropLast :=
  C7_find_paths_amended cPfLine cPfLoop [0] [0] none none 2 1 2 2
    [0, 1, 2] [0, 1, 0] [1, 0] 0 (by decide) (by decide) (by decide) rfl

/-! ## C9 — `is_directed` counts the `'undirected'` slot -/

/-- C9: `is_directed()` of an interaction whose two directed slots are
empty but whose `'undirected'` slot is not returns `True`, and in
general `is_directed()` is `True` exactly when any of the three
direction slots — the `'undirected'` one included — holds evidence. -/
theorem C9_is_directed_includes_undirected (i j : Interaction)
    (h1 : i.dir_ab = []) (h2 : i.dir_ba = []) (h3 : i.dir_un ≠ []) :
    i.is_directed = true ∧
    (j.is_directed = true ↔
      (j.dir_ab ≠ [] ∨ j.dir_ba ≠ [] ∨ j.dir_un ≠ [])) := by
  constructor
  · simp [Interaction.is_directed, h1, h2, List.isEmpty_iff, h3]
  · simp only [Interaction.is_directed, Bool.or_eq_true, Bool.not_eq_true',
      List.isEmpty_iff, List.isEmpty_eq_false]
    tauto

/-- C9 witness: the theorem at the concrete interaction with only
undirected evidence, the equivalence instantiated at the concrete
directed interaction. -/
theorem C9_is_directed_witness :
    cIaUndir.is_directed = true ∧
    (cIaDirected.is_directed = true ↔
      (cIaDirected.dir_ab ≠ [] ∨ cIaDirected.dir_ba ≠ [] ∨
        cIaDirected.dir_un ≠ [])) :=
  C9_is_directed_includes_undirected cIaUndir cIaDirected
    (by decide) (by decide) (by decide)

/-! ## C10 — `consensus` and the unreachable unknown-effect branch -/

theorem majority_sign_empty (j : Interaction) (it : Option String)
    (op br brp : Bool) (hp1 : j.pos_ab = []) (hp2 : j.pos_ba = [])
    (hn1 : j.neg_ab = []) (hn2 : j.neg_ba = []) :
    j.majority_sign it op br brp
      = [(.ab, (false, false)), (.ba, (false, false))] := by
  simp [Interaction.majority_sign, Interaction.positive,
    Interaction.negative, hp1, hp2, hn1, hn2, dirCountNil]

theorem find?_majority_sign (j : Interaction) (it : Option String)
    (op br brp : Bool) (d : Interaction.DirPair) :
    ∃ c1 c2 : Bool,
      (j.majority_sign it op br brp).find? (fun p => p.1 = d)
        = some (d, (c1, c2)) := by
  cases d <;> exact ⟨_, _, rfl⟩

theorem mem_signRows (s t : Nat) (c1 c2 : Bool)
    (row : Interaction.ConsensusRow)
    (h : row ∈
      ((if c1 = true then
          [Interaction.ConsensusRow.mk s t .directed .positive] else []) ++
       (if c2 = true then
          [Interaction.ConsensusRow.mk s t .directed .negative] else []))) :
    row.sign ≠ .unknown := by
  cases c1 <;> cases c2 <;> simp_all
  rcases h with h | h <;> rw [h] <;> simp

/-- C10: when the majority direction is a directed key but all four sign
slots are empty, `consensus` returns the empty list (the flags of
`majority_sign` are all false); and in general no row of `consensus`
combines the `directed` marker with the `unknown` sign, because
`majority_sign` assigns a (boolean-pair) value to both directed keys, so
the "directed with unknown effect" branch never fires. -/
theorem C10_consensus_no_unknown_directed (i j : Interaction)
    (it it2 : Option String) (op op2 br br2 brp brp2 : Bool)
    (row : Interaction.ConsensusRow)
    (hp1 : i.pos_ab = []) (hp2 : i.pos_ba = [])
    (hn1 : i.neg_ab = []) (hn2 : i.neg_ba = [])
    (hdir : i.majority_dir it op br brp = .ab ∨
      i.majority_dir it op br brp = .ba)
    (hrow : row ∈ j.consensus it2 op2 br2 brp2)
    (hcat : row.dircat = .directed) :
    i.consensus it op br brp = [] ∧ row.sign ≠ .unknown := by
  constructor
  · have hms := majority_sign_empty i it op br brp hp1 hp2 hn1 hn2
    rcases hdir with hd | hd <;>
    · simp only [Interaction.consensus, hd, List.flatMap_cons,
        List.flatMap_nil, List.append_nil]
      rw [hms]
      simp [List.find?]
  · cases hmd : j.majority_dir it2 op2 br2 brp2 with
    | undirected =>
      simp only [Interaction.consensus, hmd, List.mem_singleton] at hrow
      rw [hrow] at hcat
      simp at hcat
    | ab =>
      simp only [Interaction.consensus, hmd, List.flatMap_cons,
        List.flatMap_nil, List.append_nil] at hrow
      obtain ⟨c1, c2, hf⟩ := find?_majority_sign j it2 op2 br2 brp2 .ab
      rw [hf] at hrow
      exact mem_signRows _ _ c1 c2 row (by simpa using hrow)
    | ba =>
      simp only [Interaction.consensus, hmd, List.flatMap_cons,
        List.flatMap_nil, List.append_nil] at hrow
      obtain ⟨c1, c2, hf⟩ := find?_majority_sign j it2 op2 br2 brp2 .ba
      rw [hf] at hrow
      exact mem_signRows _ _ c1 c2 row (by simpa using hrow)
    | tie =>
      simp only [Interaction.consensus, hmd, List.flatMap_cons,
        List.flatMap_nil, List.append_nil, List.mem_append] at hrow
      obtain ⟨a1, a2, hfa⟩ := find?_majority_sign j it2 op2 br2 brp2 .ab
      obtain ⟨b1, b2, hfb⟩ := find?_majority_sign j it2 op2 br2 brp2 .ba
      rw [hfa, hfb] at hrow
      rcases hrow with h | h
      · exact mem_signRows _ _ a1 a2 row (by simpa using h)
      · exact mem_signRows _ _ b1 b2 row (by simpa using h)

/-- C10 witness: the theorem applied to the concrete directed interaction
with empty sign slots and to a concrete positive row of the signed
interaction's consensus. -/
theorem C10_consensus_witness :
    cIaDirected.consensus none false false true = [] ∧
    (Interaction.ConsensusRow.mk 1 2 .directed .positive).sign
      ≠ .unknown :=
  C10_consensus_no_unknown_directed cIaDirected cIaSigned
    none none false false false false true true ⟨1, 2, .directed, .positive⟩
    (by decide) (by decide) (by decide) (by decide)
    (Or.inl (by decide)) (by decide) (by decide)

end Pypath
